import Mathlib

set_option linter.unusedVariables false

/-!
Verification of the core deterministic algorithms of the deepfake-detection
ML service (ml-service/app.py, ml-service/face_detection.py,
ml-service/preprocessing.py).

Numeric values that Python computes with IEEE doubles are modelled over the
exact rationals; at every concrete input appearing in a theorem below the
double computation performed by the Python code is exact (or its 2-decimal
rounding agrees with the exact rational result), so the rational model and
the code agree bit-for-bit on those inputs.
-/

/-- Python `max` on two integers (kernel-reducible formulation). -/
def zmax (a b : ℤ) : ℤ := if a ≤ b then b else a

/-- Python `min` on two integers (kernel-reducible formulation). -/
def zmin (a b : ℤ) : ℤ := if a ≤ b then a else b

/-- Python `max` on two (exact-real) floats. -/
def qmax (a b : ℚ) : ℚ := if a ≤ b then b else a

/-- Python `min` on two (exact-real) floats. -/
def qmin (a b : ℚ) : ℚ := if a ≤ b then a else b

/-- Python `int(...)` applied to a real value: truncation toward zero. -/
def pyInt (q : ℚ) : ℤ :=
  if 0 ≤ q then Int.floor q else -Int.floor (-q)

/-- Round-half-to-even to the nearest integer, as Python `round` does. -/
def roundHalfEven (q : ℚ) : ℤ :=
  let f := Int.floor q
  let r := q - (f : ℚ)
  if r < 1/2 then f
  else if 1/2 < r then f + 1
  else if f % 2 = 0 then f else f + 1

/-- Python `round(x, 2)`: round to two decimal places. -/
def round2 (q : ℚ) : ℚ := (roundHalfEven (q * 100) : ℚ) / 100

/-- clamp v into the interval [lo, hi] (the spec's clamp(lo, hi, v)). -/
def clamp (lo hi v : ℚ) : ℚ := qmax lo (qmin hi v)

/-- numpy max over a list (junk value 0 for the empty list, which the code
guards against). -/
def npMax : List ℚ → ℚ
  | [] => 0
  | a :: t => t.foldl qmax a

/-- numpy mean: sum divided by length.  The code only applies it to
non-empty lists, except for the confidence of an empty batch, whose NaN
result is modelled separately as an absent value. -/
def npMean (l : List ℚ) : ℚ := l.sum / l.length

/-- numpy population variance. -/
def npVar (l : List ℚ) : ℚ :=
  ((l.map (fun p => (p - npMean l) ^ 2)).sum) / l.length

/-- numpy percentile with the default linear-interpolation method:
virtual rank (n-1)*q/100 over the ascending sort, interpolating between
the two neighbouring order statistics. -/
def npPercentile (l : List ℚ) (q : ℚ) : ℚ :=
  let s := List.insertionSort (· ≤ ·) l
  let rank : ℚ := ((l.length : ℚ) - 1) * q / 100
  let k : ℕ := (Int.floor rank).toNat
  let frac : ℚ := rank - (k : ℚ)
  match s[k]?, s[k + 1]? with
  | some a, some b => a + frac * (b - a)
  | some a, none => a
  | none, _ => 0

/-! ## Face crop geometry (face_detection.py, detect_and_crop_face) -/

/-- The crop rectangle computed by detect_and_crop_face, as the pixel
coordinates (x1, y1, x2, y2) used for slicing. -/
structure CropRegion where
  x1 : ℤ
  y1 : ℤ
  x2 : ℤ
  y2 : ℤ
  deriving DecidableEq

/-- size = int(max_dim * (1 + padding_percent / 100)) from
detect_and_crop_face (line 229). -/
def cropSize (w h : ℤ) (padding_percent : ℚ) : ℤ :=
  pyInt ((zmax w h : ℚ) * (1 + padding_percent / 100))

/-- Lines 238-259 of face_detection.py for one axis: the boundary-shift
block followed by the final re-clamp, for an axis of extent `limit`, crop
size `size` and initial clamped integer coordinates `lo`, `hi`.  The value
`hi1` written by the shift block is overwritten unconditionally by the
final pass, exactly as in the source (`x2 = min(img_w, x1 + size)`).
Returns the final (lo, hi) pair. -/
def adjustAxis (limit size lo hi : ℤ) : ℤ × ℤ :=
  let c := hi - lo
  let hi1 := if c < size ∧ lo = 0 then zmin limit size else hi
  let lo1 := if c < size ∧ lo ≠ 0 ∧ hi = limit then zmax 0 (limit - size) else lo
  let hi2 := zmin limit (lo1 + size)
  (zmax 0 (hi2 - size), hi2)

/-- Lines 217-259 of face_detection.py: the crop region computed by
detect_and_crop_face for image dimensions (img_w, img_h), detected face
box (x, y, w, h) and the given padding percentage.  The x- and y-axis
computations are independent in the source and are modelled per axis.
Python's float arithmetic on these integer inputs (centers are
half-integers) is modelled exactly over the rationals; half_size =
size // 2 is Python floor division. -/
def detect_and_crop_region (img_w img_h x y w h : ℤ) (padding_percent : ℚ) :
    CropRegion :=
  let center_x : ℚ := (x : ℚ) + (w : ℚ) / 2
  let center_y : ℚ := (y : ℚ) + (h : ℚ) / 2
  let size := cropSize w h padding_percent
  let half_size := Int.fdiv size 2
  let x1 := pyInt (qmax 0 (center_x - (half_size : ℚ)))
  let y1 := pyInt (qmax 0 (center_y - (half_size : ℚ)))
  let x2 := pyInt (qmin (img_w : ℚ) (center_x + (half_size : ℚ)))
  let y2 := pyInt (qmin (img_h : ℚ) (center_y + (half_size : ℚ)))
  let xs := adjustAxis img_w size x1 x2
  let ys := adjustAxis img_h size y1 y2
  ⟨xs.1, ys.1, xs.2, ys.2⟩

/-! ## Fake-probability extraction (app.py, extract_fake_probability) -/

/-- Lower-casing of an ASCII character, as Python str.lower does on the
ASCII labels produced by the classifier. -/
def lowerChar (c : Char) : Char :=
  if 65 ≤ c.toNat ∧ c.toNat ≤ 90 then Char.ofNat (c.toNat + 32) else c

/-- Substring containment on character lists (Python `needle in haystack`). -/
def containsSub (needle haystack : List Char) : Bool :=
  haystack.tails.any (fun t => needle.isPrefixOf t)

/-- Line 102 of app.py: the lowered label contains "fake", "deepfake" or
"synthetic". -/
def matchesFake (label : String) : Bool :=
  let l := label.data.map lowerChar
  containsSub "fake".data l || containsSub "deepfake".data l ||
    containsSub "synthetic".data l

/-- Line 104 of app.py: the lowered label contains "real" or "authentic". -/
def matchesReal (label : String) : Bool :=
  let l := label.data.map lowerChar
  containsSub "real".data l || containsSub "authentic".data l

/-- One entry of a classifier result: a label with its score. -/
structure LabelScore where
  label : String
  score : ℚ
  deriving DecidableEq

/-- Lines 100-106 of app.py: the for-loop over the result entries.  The
first entry whose label matches the fake patterns returns its score; an
entry matching the real patterns instead returns 1 - score; otherwise the
loop continues. -/
def extractLoop : List LabelScore → Option ℚ
  | [] => none
  | item :: rest =>
    if matchesFake item.label then some item.score
    else if matchesReal item.label then some (1 - item.score)
    else extractLoop rest

/-- Lines 96-128 of app.py, extract_fake_probability: run the loop; if no
entry matched, fall back to the first entry (whose label is re-tested,
faithfully to the dead re-check in the source) and finally to its raw
score; an empty result yields 0.5. -/
def extract_fake_probability (result : List LabelScore) : ℚ :=
  match extractLoop result with
  | some p => p
  | none =>
    match result with
    | [] => 1/2
    | top :: _ =>
      if matchesFake top.label then top.score
      else if matchesReal top.label then 1 - top.score
      else top.score

/-! ## Score aggregation (app.py, calculate_scores) -/

/-- The dictionary returned by calculate_scores (lines 190-199 of app.py),
all fields rounded to two decimals.  `confidence` is an Option: `none`
models the NaN that numpy's mean of the empty list produces when the
probability sequence is empty; every other field is then computed from
the code's explicit zero defaults. -/
structure Scores where
  video_score : ℚ
  peak_risk : ℚ
  mean_risk : ℚ
  audio_score : ℚ
  gan_fingerprint : ℚ
  temporal_consistency : ℚ
  risk_score : ℚ
  confidence : Option ℚ
  deriving DecidableEq

/-- Lines 156-164 of app.py: video_score = P90 of the probabilities × 100,
or the 0.0 default for an empty sequence. -/
def videoScoreOf (probs : List ℚ) : ℚ :=
  if 0 < probs.length then npPercentile probs 90 * 100 else 0

/-- Lines 156-164 of app.py: peak_risk = max probability × 100, or 0.0. -/
def peakRiskOf (probs : List ℚ) : ℚ :=
  if 0 < probs.length then npMax probs * 100 else 0

/-- Lines 156-164 of app.py: mean_risk = mean probability × 100, or 0.0. -/
def meanRiskOf (probs : List ℚ) : ℚ :=
  if 0 < probs.length then npMean probs * 100 else 0

/-- Lines 169-174 of app.py: temporal consistency from the population
variance for videos with more than one frame, 100.0 otherwise. -/
def temporalConsistencyOf (probs : List ℚ) (media_type : String) : ℚ :=
  if media_type = "VIDEO" ∧ 1 < probs.length then
    qmax 0 (qmin 100 (100 - npVar probs * 1000))
  else 100

/-- Line 177 of app.py: audio_score = 0.0 unless the media type is AUDIO,
in which case it equals video_score. -/
def audioScoreOf (probs : List ℚ) (media_type : String) : ℚ :=
  if media_type ≠ "AUDIO" then 0 else videoScoreOf probs

/-- Line 180 of app.py: confidence = mean of max(p, 1-p) × 100; numpy's
mean of an empty list is NaN, modelled as `none`. -/
def confidenceOf (probs : List ℚ) : Option ℚ :=
  if probs.isEmpty then none
  else some (npMean (probs.map fun p => qmax p (1 - p)) * 100)

/-- Lines 182-186 of app.py: risk_score starts as video_score, is blended
with peak_risk when peak_risk exceeds it by more than 10, and is clamped
to [0, 100]. -/
def riskScoreOf (probs : List ℚ) : ℚ :=
  let rs := videoScoreOf probs
  let rs2 :=
    if rs + 10 < peakRiskOf probs then rs * (7/10) + peakRiskOf probs * (3/10)
    else rs
  qmin 100 (qmax 0 rs2)

/-- Lines 131-199 of app.py, calculate_scores: assemble the report from
the intermediate values, rounding each field to two decimals. -/
def calculate_scores (fake_probs : List ℚ) (media_type : String) : Scores where
  video_score := round2 (videoScoreOf fake_probs)
  peak_risk := round2 (peakRiskOf fake_probs)
  mean_risk := round2 (meanRiskOf fake_probs)
  audio_score := round2 (audioScoreOf fake_probs media_type)
  gan_fingerprint := round2 (videoScoreOf fake_probs)
  temporal_consistency := round2 (temporalConsistencyOf fake_probs media_type)
  risk_score := round2 (riskScoreOf fake_probs)
  confidence := (confidenceOf fake_probs).map round2

/-! ## Largest-face selection (face_detection.py, _detect_face_dnn) -/

/-- One raw DNN detection after the box has been scaled to pixel units and
cast to integers (lines 120-121 of face_detection.py): corner coordinates
plus confidence. -/
structure RawDetection where
  x1 : ℤ
  y1 : ℤ
  x2 : ℤ
  y2 : ℤ
  confidence : ℚ
  deriving DecidableEq

/-- A surviving face candidate (x, y, w, h, confidence) as appended on
line 130 of face_detection.py. -/
structure Face where
  x : ℤ
  y : ℤ
  w : ℤ
  h : ℤ
  confidence : ℚ
  deriving DecidableEq

/-- The sort key of line 136: width × height. -/
def faceArea (f : Face) : ℤ := f.w * f.h

/-- Lines 119-130 of face_detection.py: keep a detection only if its
confidence strictly exceeds the threshold and its geometry, clamped to the
image bounds, is non-degenerate. -/
def clampDetection (w h : ℤ) (threshold : ℚ) (d : RawDetection) : Option Face :=
  if threshold < d.confidence then
    let x1 := zmax 0 d.x1
    let y1 := zmax 0 d.y1
    let x2 := zmin w d.x2
    let y2 := zmin h d.y2
    if x1 < x2 ∧ y1 < y2 then some ⟨x1, y1, x2 - x1, y2 - y1, d.confidence⟩
    else none
  else none

/-- The list of surviving faces, in detection order. -/
def survivingFaces (w h : ℤ) (dets : List RawDetection) (threshold : ℚ) :
    List Face :=
  dets.filterMap (clampDetection w h threshold)

/-- Python's max(faces, key=area) (line 136): scan keeping the current
best, replacing it only on a strictly larger key, so the first of several
maxima wins. -/
def pyMaxFace (best : Face) : List Face → Face
  | [] => best
  | g :: gs => pyMaxFace (if faceArea best < faceArea g then g else best) gs

/-- Lines 95-137 of face_detection.py, _detect_face_dnn: None when no
detection survives, otherwise the largest surviving face as (x, y, w, h).
The default confidence threshold in the source is 0.3. -/
def detect_face_dnn (w h : ℤ) (dets : List RawDetection) (threshold : ℚ) :
    Option (ℤ × ℤ × ℤ × ℤ) :=
  match survivingFaces w h dets threshold with
  | [] => none
  | f :: fs =>
    let largest := pyMaxFace f fs
    some (largest.x, largest.y, largest.w, largest.h)

/-! ## Frame sampling (preprocessing.py, preprocess_frames) -/

/-- Helper realising Python's extended slice l[::k]: `c` counts the
positions remaining until the next kept element. -/
def everyNthAux {α : Type} (k : ℕ) : List α → ℕ → List α
  | [], _ => []
  | a :: rest, 0 => a :: everyNthAux k rest (k - 1)
  | _ :: rest, c + 1 => everyNthAux k rest c

/-- Python's l[::k] for k ≥ 1: every k-th element starting at index 0. -/
def everyNth {α : Type} (l : List α) (k : ℕ) : List α := everyNthAux k l 0

/-- Lines 141-150 of preprocessing.py: the frame-sampling step of
preprocess_frames.  With no limit (None) or a falsy limit (0) the list is
unchanged; when more frames than max_frames are present, take every
step-th frame (step = count // max_frames) and truncate to max_frames. -/
def sampleFrames {α : Type} (frame_paths : List α) (max_frames : Option ℕ) :
    List α :=
  match max_frames with
  | none => frame_paths
  | some m =>
    if m ≠ 0 ∧ m < frame_paths.length then
      (everyNth frame_paths (frame_paths.length / m)).take m
    else frame_paths

/-! ## Batch preprocessing (preprocessing.py, preprocess_batch) -/

/-- Lines 106-113 of preprocessing.py: the per-path loop.  The external,
fallible preprocess_image call is abstracted as `pre : α → Option β`
(none models a raised exception for that path, which the loop catches and
skips); successes accumulate in order into the tensor list and the
valid-path list. -/
def batchLoop {α β : Type} (pre : α → Option β) : List α → List β × List α
  | [] => ([], [])
  | p :: rest =>
    let r := batchLoop pre rest
    match pre p with
    | some t => (t :: r.1, p :: r.2)
    | none => r

/-- Lines 88-125 of preprocessing.py, preprocess_batch: error on an empty
path list, error when no path survives preprocessing, otherwise the
stacked batch together with the surviving paths. -/
def preprocess_batch {α β : Type} (pre : α → Option β) (image_paths : List α) :
    Except String (List β × List α) :=
  if image_paths.isEmpty then Except.error "Empty image paths list"
  else
    let r := batchLoop pre image_paths
    if r.1.isEmpty then Except.error "No valid images found in batch"
    else Except.ok r

/-- A concrete fallible loader for the witness: succeeds exactly on even
numbers. -/
def evenLoader (n : ℕ) : Option ℕ :=
  if n % 2 = 0 then some (n * 10) else none

/-! ## Lemmas and claim theorems -/

lemma pyInt_nonneg {q : ℚ} (h : 0 ≤ q) : 0 ≤ pyInt q := by
  simp only [pyInt, if_pos h]
  exact_mod_cast Int.le_floor.2 (by exact_mod_cast h)

lemma qmax_zero_nonneg (q : ℚ) : 0 ≤ qmax 0 q := by
  simp only [qmax]; split_ifs with h
  · exact h
  · exact le_rfl

lemma adjustAxis_spec (limit s lo hi : ℤ) (h : 0 ≤ lo) :
    0 ≤ (adjustAxis limit s lo hi).1 ∧
    (adjustAxis limit s lo hi).2 ≤ limit ∧
    (adjustAxis limit s lo hi).2 - (adjustAxis limit s lo hi).1 = zmin s limit := by
  simp only [adjustAxis, zmin, zmax]
  split_ifs <;> refine ⟨by omega, by omega, by omega⟩

lemma zmin_eq_of_le {a b : ℤ} (h : a ≤ b) : zmin a b = a := by
  simp only [zmin, if_pos h]

lemma cropRegion_ext {r s : CropRegion} (h1 : r.x1 = s.x1) (h2 : r.y1 = s.y1)
    (h3 : r.x2 = s.x2) (h4 : r.y2 = s.y2) : r = s := by
  cases r; cases s; simp_all

/-- C4: for a 100×100 image, box (40,40,20,20) and 30 % padding the crop
size is 26 = int(20 * 1.3) and the crop region is exactly x=37, y=37,
w=26, h=26, centered at (50,50).  (20 * 1.3 is also exact in Python's
double arithmetic, so the rational model reproduces the code
bit-for-bit here.) -/
theorem crop_region_worked_example :
    cropSize 20 20 30 = 26 ∧
    detect_and_crop_region 100 100 40 40 20 20 30 = ⟨37, 37, 63, 63⟩ ∧
    (detect_and_crop_region 100 100 40 40 20 20 30).x2 -
      (detect_and_crop_region 100 100 40 40 20 20 30).x1 = 26 ∧
    (detect_and_crop_region 100 100 40 40 20 20 30).y2 -
      (detect_and_crop_region 100 100 40 40 20 20 30).y1 = 26 := by
  have hs : cropSize 20 20 30 = 26 := by norm_num [cropSize, pyInt, zmax]
  have hf : Int.fdiv 26 2 = 13 := by decide
  have hr : detect_and_crop_region 100 100 40 40 20 20 30 = ⟨37, 37, 63, 63⟩ := by
    simp only [detect_and_crop_region, hs, hf]
    norm_num [adjustAxis, pyInt, qmax, qmin, zmax, zmin]
  exact ⟨hs, hr, by rw [hr]; decide, by rw [hr]; decide⟩

/-- C1 (amended): for every image size (W,H) with W,H > 0 and detected box
(x,y,w,h) with w,h > 0 overlapping the image, the crop region is always in
bounds (x1 ≥ 0, y1 ≥ 0, x2 ≤ W, y2 ≤ H), and it is square whenever the
padded size fits inside both image dimensions; when the padded size
exceeds one dimension only, the crop spans that full dimension and need
not be square (see the counterexample). -/
theorem crop_region_in_bounds_and_square
    (W H x y w h : ℤ) (hW : 0 < W) (hH : 0 < H) (hw : 0 < w) (hh : 0 < h)
    (hxW : x < W) (hyH : y < H) (hxp : 0 < x + w) (hyp : 0 < y + h) :
    0 ≤ (detect_and_crop_region W H x y w h 30).x1 ∧
    0 ≤ (detect_and_crop_region W H x y w h 30).y1 ∧
    (detect_and_crop_region W H x y w h 30).x2 ≤ W ∧
    (detect_and_crop_region W H x y w h 30).y2 ≤ H ∧
    (cropSize w h 30 ≤ W → cropSize w h 30 ≤ H →
      (detect_and_crop_region W H x y w h 30).x2 -
        (detect_and_crop_region W H x y w h 30).x1 =
      (detect_and_crop_region W H x y w h 30).y2 -
        (detect_and_crop_region W H x y w h 30).y1) := by
  have hx := adjustAxis_spec W (cropSize w h 30)
    (pyInt (qmax 0 ((x : ℚ) + (w : ℚ) / 2 - ((Int.fdiv (cropSize w h 30) 2 : ℤ) : ℚ))))
    (pyInt (qmin (W : ℚ) ((x : ℚ) + (w : ℚ) / 2 + ((Int.fdiv (cropSize w h 30) 2 : ℤ) : ℚ))))
    (pyInt_nonneg (qmax_zero_nonneg _))
  have hy := adjustAxis_spec H (cropSize w h 30)
    (pyInt (qmax 0 ((y : ℚ) + (h : ℚ) / 2 - ((Int.fdiv (cropSize w h 30) 2 : ℤ) : ℚ))))
    (pyInt (qmin (H : ℚ) ((y : ℚ) + (h : ℚ) / 2 + ((Int.fdiv (cropSize w h 30) 2 : ℤ) : ℚ))))
    (pyInt_nonneg (qmax_zero_nonneg _))
  simp only [detect_and_crop_region]
  exact ⟨hx.1, hy.1, hx.2.1, hy.2.1, fun hsW hsH => by
    rw [hx.2.2, hy.2.2, zmin_eq_of_le hsW, zmin_eq_of_le hsH]⟩

/-- Witness for crop_region_in_bounds_and_square at the concrete input of
the spec's worked example (W = H = 100, box 40,40,20,20). -/
theorem crop_region_in_bounds_and_square_witness :
    0 ≤ (detect_and_crop_region 100 100 40 40 20 20 30).x1 ∧
    0 ≤ (detect_and_crop_region 100 100 40 40 20 20 30).y1 ∧
    (detect_and_crop_region 100 100 40 40 20 20 30).x2 ≤ 100 ∧
    (detect_and_crop_region 100 100 40 40 20 20 30).y2 ≤ 100 ∧
    (detect_and_crop_region 100 100 40 40 20 20 30).x2 -
      (detect_and_crop_region 100 100 40 40 20 20 30).x1 =
    (detect_and_crop_region 100 100 40 40 20 20 30).y2 -
      (detect_and_crop_region 100 100 40 40 20 20 30).y1 := by
  have h := crop_region_in_bounds_and_square 100 100 40 40 20 20
    (by decide) (by decide) (by decide) (by decide)
    (by decide) (by decide) (by decide) (by decide)
  have hs : cropSize 20 20 30 = 26 := by norm_num [cropSize, pyInt, zmax]
  exact ⟨h.1, h.2.1, h.2.2.1, h.2.2.2.1,
    h.2.2.2.2 (by rw [hs]; decide) (by rw [hs]; decide)⟩

/-- Counterexample to C1 as stated: a 10×10 face box filling the width of
a 10×100 image satisfies all of the claim's hypotheses, yet the computed
crop is (0,0)-(10,13): in bounds but 10 wide and 13 tall, not square. -/
theorem crop_region_square_counterexample :
    (0 < (10 : ℤ) ∧ 0 < (100 : ℤ) ∧ 0 < (10 : ℤ) ∧
      (0 : ℤ) ≤ 0 ∧ (0 : ℤ) + 10 ≤ 10 ∧ (0 : ℤ) + 10 ≤ 100) ∧
    detect_and_crop_region 10 100 0 0 10 10 30 = ⟨0, 0, 10, 13⟩ ∧
    (detect_and_crop_region 10 100 0 0 10 10 30).x2 -
      (detect_and_crop_region 10 100 0 0 10 10 30).x1 ≠
    (detect_and_crop_region 10 100 0 0 10 10 30).y2 -
      (detect_and_crop_region 10 100 0 0 10 10 30).y1 := by
  have hs : cropSize 10 10 30 = 13 := by norm_num [cropSize, pyInt, zmax]
  have hf : Int.fdiv 13 2 = 6 := by decide
  have hr : detect_and_crop_region 10 100 0 0 10 10 30 = ⟨0, 0, 10, 13⟩ := by
    simp only [detect_and_crop_region, hs, hf]
    norm_num [adjustAxis, pyInt, qmax, qmin, zmax, zmin]
  exact ⟨by decide, hr, by rw [hr]; decide⟩

lemma extractLoop_append_none {pre : List LabelScore} (rest : List LabelScore)
    (hpre : ∀ e ∈ pre, matchesFake e.label = false ∧ matchesReal e.label = false) :
    extractLoop (pre ++ rest) = extractLoop rest := by
  induction pre with
  | nil => rfl
  | cons e pre ih =>
    have he := hpre e (List.mem_cons_self e pre)
    simp only [List.cons_append, extractLoop, he.1, he.2, Bool.false_eq_true,
      if_false]
    exact ih (fun e' he' => hpre e' (List.mem_cons_of_mem e he'))

/-- C2 (amended): the extractor scans entries in order and the first entry
matching either the fake patterns or the real patterns decides the result:
a fake-labelled entry's score is returned only when no earlier entry
matches the real patterns.  On [{Real,0.8},{Fake,0.2}] it returns 0.2
(via the real rule on the first entry: 1 - 0.8), which coincides with the
spec's expected value. -/
theorem extract_fake_probability_first_match
    (pre post : List LabelScore) (item : LabelScore)
    (hpre : ∀ e ∈ pre, matchesFake e.label = false ∧ matchesReal e.label = false)
    (hitem : matchesFake item.label = true) :
    extract_fake_probability (pre ++ item :: post) = item.score ∧
    extract_fake_probability [⟨"Real", 8/10⟩, ⟨"Fake", 2/10⟩] = 2/10 := by
  constructor
  · have h1 : extractLoop (pre ++ item :: post) = some item.score := by
      rw [extractLoop_append_none (item :: post) hpre]
      simp [extractLoop, hitem]
    simp [extract_fake_probability, h1]
  · have h1 : matchesFake "Real" = false := by decide
    have h2 : matchesReal "Real" = true := by decide
    norm_num [extract_fake_probability, extractLoop, h1, h2]

/-- Witness for extract_fake_probability_first_match: a result whose first
entry matches neither pattern followed by a Fake entry returns the Fake
entry's score. -/
theorem extract_fake_probability_first_match_witness :
    extract_fake_probability [⟨"unknown", 1/2⟩, ⟨"Fake", 2/10⟩] = 2/10 ∧
    extract_fake_probability [⟨"Real", 8/10⟩, ⟨"Fake", 2/10⟩] = 2/10 :=
  extract_fake_probability_first_match [⟨"unknown", 1/2⟩] []
    ⟨"Fake", 2/10⟩ (by decide) (by decide)

/-- Counterexample to C2 as stated: on [{Real,0.7},{Fake,0.2}] the code
returns 1 - 0.7 = 0.3 (the real rule fires on the earlier entry), not the
Fake entry's score 0.2, so rule 1 does not fire before rule 2 regardless
of list order. -/
theorem extract_fake_probability_order_counterexample :
    extract_fake_probability [⟨"Real", 7/10⟩, ⟨"Fake", 2/10⟩] = 3/10 ∧
    (3/10 : ℚ) ≠ 2/10 := by
  constructor
  · have h1 : matchesFake "Real" = false := by decide
    have h2 : matchesReal "Real" = true := by decide
    norm_num [extract_fake_probability, extractLoop, h1, h2]
  · norm_num

lemma extractLoop_bounds {result : List LabelScore}
    (h : ∀ e ∈ result, 0 ≤ e.score ∧ e.score ≤ 1) {p : ℚ}
    (hp : extractLoop result = some p) : 0 ≤ p ∧ p ≤ 1 := by
  induction result with
  | nil => simp [extractLoop] at hp
  | cons e rest ih =>
    have he := h e (List.mem_cons_self e rest)
    simp only [extractLoop] at hp
    split_ifs at hp with h1 h2
    · cases hp; exact he
    · cases hp; constructor <;> linarith [he.1, he.2]
    · exact ih (fun e' he' => h e' (List.mem_cons_of_mem e he')) hp

/-- C9: whenever every entry's score lies in [0,1], the extracted fake
probability lies in [0,1]; the empty result yields exactly 0.5. -/
theorem extract_fake_probability_in_unit_interval (result : List LabelScore)
    (h : ∀ e ∈ result, 0 ≤ e.score ∧ e.score ≤ 1) :
    (0 ≤ extract_fake_probability result ∧ extract_fake_probability result ≤ 1) ∧
    extract_fake_probability [] = 1/2 := by
  refine ⟨?_, by norm_num [extract_fake_probability, extractLoop]⟩
  unfold extract_fake_probability
  cases hl : extractLoop result with
  | some p => exact extractLoop_bounds h hl
  | none =>
    cases result with
    | nil => norm_num
    | cons top rest =>
      have ht := h top (List.mem_cons_self top rest)
      dsimp only
      split_ifs <;> constructor <;> linarith [ht.1, ht.2]

/-- Witness for extract_fake_probability_in_unit_interval on a concrete
two-entry result with scores in [0,1]. -/
theorem extract_fake_probability_in_unit_interval_witness :
    (0 ≤ extract_fake_probability [⟨"Real", 8/10⟩, ⟨"Fake", 2/10⟩] ∧
      extract_fake_probability [⟨"Real", 8/10⟩, ⟨"Fake", 2/10⟩] ≤ 1) ∧
    extract_fake_probability [] = 1/2 :=
  extract_fake_probability_in_unit_interval [⟨"Real", 8/10⟩, ⟨"Fake", 2/10⟩]
    (by norm_num)

/-- C3 (amended): calculate_scores on the empty probability sequence does
not fail: it returns the defaulted report with all risk fields 0.0,
temporal consistency 100.0 and an undefined (NaN) confidence. -/
theorem calculate_scores_empty_returns_defaults :
    calculate_scores [] "VIDEO" = ⟨0, 0, 0, 0, 0, 100, 0, none⟩ := by
  simp only [calculate_scores, videoScoreOf, peakRiskOf, meanRiskOf,
    audioScoreOf, temporalConsistencyOf, confidenceOf, riskScoreOf,
    Scores.mk.injEq]
  norm_num [round2, roundHalfEven, qmin, qmax]

/-- Counterexample to C3 as stated: the code does not raise on the empty
sequence; the guarded else-branch (lines 161-164 of app.py) silently
produces zeroed scores, so the report's risk fields are all 0. -/
theorem calculate_scores_empty_counterexample :
    (calculate_scores [] "VIDEO").video_score = 0 ∧
    (calculate_scores [] "VIDEO").peak_risk = 0 ∧
    (calculate_scores [] "VIDEO").mean_risk = 0 ∧
    (calculate_scores [] "VIDEO").risk_score = 0 ∧
    (calculate_scores [] "VIDEO").confidence = none := by
  simp only [calculate_scores, videoScoreOf, peakRiskOf, meanRiskOf,
    confidenceOf, riskScoreOf]
  norm_num [round2, roundHalfEven, qmin, qmax]

/-- C5: risk_score starts as video_score (P90 × 100); exactly when
peak_risk exceeds it by more than 10 it becomes the 0.7/0.3 blend, and the
result is clamped to [0,100].  On probs = [0.9,0.1,0.1,0.1,0.1] with media
type VIDEO: mean_risk = 26.0, peak_risk = 90.0, video_score = 58.0 and
risk_score = 67.6 — the blended value, not the raw video_score. -/
theorem risk_score_blend (probs : List ℚ) (mt : String) (h : probs ≠ []) :
    videoScoreOf probs = npPercentile probs 90 * 100 ∧
    riskScoreOf probs = qmin 100 (qmax 0
      (if videoScoreOf probs + 10 < peakRiskOf probs then
        videoScoreOf probs * (7/10) + peakRiskOf probs * (3/10)
      else videoScoreOf probs)) ∧
    (calculate_scores probs mt).risk_score = round2 (riskScoreOf probs) ∧
    (calculate_scores [9/10, 1/10, 1/10, 1/10, 1/10] "VIDEO").mean_risk = 26 ∧
    (calculate_scores [9/10, 1/10, 1/10, 1/10, 1/10] "VIDEO").peak_risk = 90 ∧
    (calculate_scores [9/10, 1/10, 1/10, 1/10, 1/10] "VIDEO").video_score = 58 ∧
    (calculate_scores [9/10, 1/10, 1/10, 1/10, 1/10] "VIDEO").risk_score = 338/5 ∧
    (calculate_scores [9/10, 1/10, 1/10, 1/10, 1/10] "VIDEO").risk_score ≠
      (calculate_scores [9/10, 1/10, 1/10, 1/10, 1/10] "VIDEO").video_score := by
  have hlen : 0 < probs.length := List.length_pos.mpr h
  have hperc : npPercentile [(9:ℚ)/10, 1/10, 1/10, 1/10, 1/10] 90 = 29/50 := by
    have hsort : List.insertionSort (· ≤ ·) [(9:ℚ)/10, 1/10, 1/10, 1/10, 1/10]
        = [1/10, 1/10, 1/10, 1/10, 9/10] := by
      norm_num [List.insertionSort, List.orderedInsert]
    have hrank : ((([(9:ℚ)/10, 1/10, 1/10, 1/10, 1/10].length : ℚ)) - 1) * 90 / 100
        = 18/5 := by norm_num
    have hfl : (Int.floor ((18:ℚ)/5)).toNat = 3 := by
      have h3 : Int.floor ((18:ℚ)/5) = 3 := by norm_num
      rw [h3]; rfl
    simp only [npPercentile, hrank, hfl, hsort]
    norm_num
  have hv : videoScoreOf [(9:ℚ)/10, 1/10, 1/10, 1/10, 1/10] = 58 := by
    norm_num [videoScoreOf, hperc]
  have hp : peakRiskOf [(9:ℚ)/10, 1/10, 1/10, 1/10, 1/10] = 90 := by
    norm_num [peakRiskOf, npMax, qmax]
  have hm : meanRiskOf [(9:ℚ)/10, 1/10, 1/10, 1/10, 1/10] = 26 := by
    norm_num [meanRiskOf, npMean]
  have hr : riskScoreOf [(9:ℚ)/10, 1/10, 1/10, 1/10, 1/10] = 338/5 := by
    rw [riskScoreOf, hv, hp]
    norm_num [qmin, qmax]
  refine ⟨by rw [videoScoreOf, if_pos hlen], rfl, rfl, ?_, ?_, ?_, ?_, ?_⟩
  · show round2 (meanRiskOf _) = 26
    rw [hm]; norm_num [round2, roundHalfEven]
  · show round2 (peakRiskOf _) = 90
    rw [hp]; norm_num [round2, roundHalfEven]
  · show round2 (videoScoreOf _) = 58
    rw [hv]; norm_num [round2, roundHalfEven]
  · show round2 (riskScoreOf _) = 338/5
    rw [hr]; norm_num [round2, roundHalfEven]
  · show round2 (riskScoreOf _) ≠ round2 (videoScoreOf _)
    rw [hr, hv]; norm_num [round2, roundHalfEven]

/-- Witness for risk_score_blend at the concrete probability list of the
spec's worked example. -/
theorem risk_score_blend_witness :
    videoScoreOf [9/10, 1/10, 1/10, 1/10, 1/10] =
      npPercentile [9/10, 1/10, 1/10, 1/10, 1/10] 90 * 100 ∧
    (calculate_scores [9/10, 1/10, 1/10, 1/10, 1/10] "VIDEO").risk_score = 338/5 :=
  ⟨(risk_score_blend [9/10, 1/10, 1/10, 1/10, 1/10] "VIDEO"
      (List.cons_ne_nil _ _)).1,
   (risk_score_blend [9/10, 1/10, 1/10, 1/10, 1/10] "VIDEO"
      (List.cons_ne_nil _ _)).2.2.2.2.2.2.1⟩

/-- C6: temporal consistency equals clamp(0,100,100 - variance×1000) when
the media type is VIDEO and there are at least two probabilities, and is
exactly 100.0 otherwise; in particular every single-element sequence
yields 100.0 regardless of media type. -/
theorem temporal_consistency_spec (probs : List ℚ) (mt : String)
    (h : probs ≠ []) (p : ℚ) (mt2 : String) :
    temporalConsistencyOf probs mt =
      (if mt = "VIDEO" ∧ 2 ≤ probs.length then
        clamp 0 100 (100 - npVar probs * 1000)
      else 100) ∧
    (calculate_scores probs mt).temporal_consistency =
      round2 (temporalConsistencyOf probs mt) ∧
    temporalConsistencyOf [p] mt2 = 100 ∧
    (calculate_scores [p] mt2).temporal_consistency = 100 := by
  have h1 : temporalConsistencyOf [p] mt2 = 100 := by
    simp [temporalConsistencyOf]
  refine ⟨rfl, rfl, h1, ?_⟩
  show round2 (temporalConsistencyOf [p] mt2) = 100
  rw [h1]; norm_num [round2, roundHalfEven]

/-- Witness for temporal_consistency_spec: a single-frame IMAGE input has
temporal consistency exactly 100. -/
theorem temporal_consistency_spec_witness :
    temporalConsistencyOf [1/2] "IMAGE" = 100 ∧
    (calculate_scores [1/2] "IMAGE").temporal_consistency = 100 :=
  ⟨(temporal_consistency_spec [1/2] "VIDEO" (List.cons_ne_nil _ _)
      (1/2) "IMAGE").2.2.1,
   (temporal_consistency_spec [1/2] "VIDEO" (List.cons_ne_nil _ _)
      (1/2) "IMAGE").2.2.2⟩

lemma pyMaxFace_spec (gs : List Face) (best : Face) :
    (pyMaxFace best gs = best ∧ ∀ g ∈ gs, faceArea g ≤ faceArea best) ∨
    (∃ l₁ g l₂, gs = l₁ ++ g :: l₂ ∧ pyMaxFace best gs = g ∧
      faceArea best < faceArea g ∧
      (∀ g' ∈ l₁, faceArea g' < faceArea g) ∧
      (∀ g' ∈ l₂, faceArea g' ≤ faceArea g)) := by
  induction gs generalizing best with
  | nil => exact Or.inl ⟨rfl, by simp⟩
  | cons a rest ih =>
    by_cases ha : faceArea best < faceArea a
    · have hstep : pyMaxFace best (a :: rest) = pyMaxFace a rest := by
        simp [pyMaxFace, ha]
      rcases ih a with ⟨he, hall⟩ | ⟨l₁, g, l₂, hsplit, he, hlt, h1, h2⟩
      · refine Or.inr ⟨[], a, rest, by simp, by rw [hstep, he], ha, by simp, ?_⟩
        intro g' hg'; exact hall g' hg'
      · refine Or.inr ⟨a :: l₁, g, l₂, by rw [hsplit]; rfl, by rw [hstep, he],
          lt_trans ha hlt, ?_, h2⟩
        intro g' hg'
        rcases List.mem_cons.1 hg' with rfl | hg'
        · exact hlt
        · exact h1 g' hg'
    · have hstep : pyMaxFace best (a :: rest) = pyMaxFace best rest := by
        simp [pyMaxFace, ha]
      rcases ih best with ⟨he, hall⟩ | ⟨l₁, g, l₂, hsplit, he, hlt, h1, h2⟩
      · refine Or.inl ⟨by rw [hstep, he], ?_⟩
        intro g' hg'
        rcases List.mem_cons.1 hg' with rfl | hg'
        · exact le_of_not_lt ha
        · exact hall g' hg'
      · refine Or.inr ⟨a :: l₁, g, l₂, by rw [hsplit]; rfl, by rw [hstep, he],
          hlt, ?_, h2⟩
        intro g' hg'
        rcases List.mem_cons.1 hg' with rfl | hg'
        · exact lt_of_le_of_lt (le_of_not_lt ha) hlt
        · exact h1 g' hg'

/-- C8: the DNN face selector discards detections at or below the
confidence threshold and degenerate clamped boxes; it returns None exactly
when nothing survives, and otherwise the first-encountered surviving face
of maximal area (every earlier survivor is strictly smaller, every later
one no larger).  On detections A (confidence 0.9, area 100) and B
(confidence 0.4, area 400) with threshold 0.3 it returns B. -/
theorem detect_face_dnn_spec (w h : ℤ) (dets : List RawDetection) (t : ℚ) :
    (detect_face_dnn w h dets t = none ↔ survivingFaces w h dets t = []) ∧
    (∀ d ∈ dets, d.confidence ≤ t → clampDetection w h t d = none) ∧
    (∀ a b bw bh, detect_face_dnn w h dets t = some (a, b, bw, bh) →
      ∃ l₁ g l₂, survivingFaces w h dets t = l₁ ++ g :: l₂ ∧
        (g.x, g.y, g.w, g.h) = (a, b, bw, bh) ∧
        (∀ g' ∈ l₁, faceArea g' < faceArea g) ∧
        (∀ g' ∈ l₂, faceArea g' ≤ faceArea g)) ∧
    detect_face_dnn 100 100
      [⟨0, 0, 10, 10, 9/10⟩, ⟨0, 0, 20, 20, 4/10⟩] (3/10) =
      some (0, 0, 20, 20) := by
  refine ⟨?_, ?_, ?_, ?_⟩
  · cases hs : survivingFaces w h dets t with
    | nil => simp [detect_face_dnn, hs]
    | cons f fs => simp [detect_face_dnn, hs]
  · intro d hd hconf
    simp only [clampDetection, if_neg (not_lt.2 hconf)]
  · intro a b bw bh hdet
    cases hs : survivingFaces w h dets t with
    | nil => rw [detect_face_dnn, hs] at hdet; cases hdet
    | cons f fs =>
      rw [detect_face_dnn, hs] at hdet
      simp only [Option.some.injEq] at hdet
      rcases pyMaxFace_spec fs f with ⟨he, hall⟩ |
        ⟨l₁, g, l₂, hsplit, he, hlt, h1, h2⟩
      · refine ⟨[], f, fs, by simp, ?_, by simp, ?_⟩
        · rw [he] at hdet; exact hdet
        · intro g' hg'; exact hall g' hg'
      · refine ⟨f :: l₁, g, l₂, by rw [hsplit]; rfl, ?_, ?_, ?_⟩
        · rw [he] at hdet; exact hdet
        · intro g' hg'
          rcases List.mem_cons.1 hg' with rfl | hg'
          · exact hlt
          · exact h1 g' hg'
        · intro g' hg'; exact h2 g' hg'
  · have hsurv : survivingFaces 100 100
        [⟨0, 0, 10, 10, 9/10⟩, ⟨0, 0, 20, 20, 4/10⟩] (3/10) =
        [⟨0, 0, 10, 10, 9/10⟩, ⟨0, 0, 20, 20, 4/10⟩] := by
      norm_num [survivingFaces, List.filterMap, clampDetection, zmax, zmin]
    rw [detect_face_dnn, hsurv]
    norm_num [pyMaxFace, faceArea]

/-- Witness for detect_face_dnn_spec at the claim's concrete pair of
detections: the selector output is a first-encountered maximal-area
survivor. -/
theorem detect_face_dnn_spec_witness :
    ∃ l₁ g l₂, survivingFaces 100 100
        [⟨0, 0, 10, 10, 9/10⟩, ⟨0, 0, 20, 20, 4/10⟩] (3/10) = l₁ ++ g :: l₂ ∧
      (g.x, g.y, g.w, g.h) = ((0:ℤ), (0:ℤ), (20:ℤ), (20:ℤ)) ∧
      (∀ g' ∈ l₁, faceArea g' < faceArea g) ∧
      (∀ g' ∈ l₂, faceArea g' ≤ faceArea g) :=
  (detect_face_dnn_spec 100 100
      [⟨0, 0, 10, 10, 9/10⟩, ⟨0, 0, 20, 20, 4/10⟩] (3/10)).2.2.1 0 0 20 20
    (detect_face_dnn_spec 100 100
      [⟨0, 0, 10, 10, 9/10⟩, ⟨0, 0, 20, 20, 4/10⟩] (3/10)).2.2.2

lemma everyNthAux_length {α : Type} (k : ℕ) (hk : 1 ≤ k) :
    ∀ (l : List α) (c : ℕ),
      (everyNthAux k l c).length = (l.length - c + (k - 1)) / k := by
  intro l
  induction l with
  | nil =>
    intro c
    have h0 : (0 - c + (k - 1)) / k = 0 := Nat.div_eq_of_lt (by omega)
    simp only [everyNthAux, List.length_nil, h0]
  | cons a rest ih =>
    intro c
    cases c with
    | zero =>
      simp only [everyNthAux, List.length_cons, ih (k - 1)]
      rcases Nat.le_total (k - 1) rest.length with hle | hle
      · rw [Nat.sub_add_cancel hle]
        have he : rest.length + 1 - 0 + (k - 1) = rest.length + k := by omega
        rw [he, Nat.add_div_right rest.length (show 0 < k by omega)]
      · have h0 : rest.length - (k - 1) = 0 := by omega
        rw [h0]
        have h1 : (0 + (k - 1)) / k = 0 := Nat.div_eq_of_lt (by omega)
        have he : rest.length + 1 - 0 + (k - 1) = rest.length + k := by omega
        rw [h1, he, Nat.add_div_right rest.length (show 0 < k by omega),
          Nat.div_eq_of_lt (show rest.length < k by omega)]
    | succ c =>
      simp only [everyNthAux, List.length_cons, ih c, Nat.succ_sub_succ]

lemma everyNth_length {α : Type} (l : List α) (k : ℕ) (hk : 1 ≤ k) :
    (everyNth l k).length = (l.length + (k - 1)) / k := by
  rw [everyNth, everyNthAux_length k hk l 0, Nat.sub_zero]

/-- C7: the frame sampler returns the list unchanged when max_frames is
absent or at least the frame count; otherwise it takes every stride-th
frame (stride = count / max_frames ≥ 1) from index 0, truncates to
max_frames, and the result has length exactly max_frames.  Concretely,
100 frames with limit 30 yield exactly 30; no limit yields all 100;
10 frames with limit 30 yield all 10. -/
theorem preprocess_frames_sampling {α : Type} (frames : List α) (m : ℕ)
    (hm : 1 ≤ m) :
    sampleFrames frames none = frames ∧
    (frames.length ≤ m → sampleFrames frames (some m) = frames) ∧
    (m < frames.length →
      1 ≤ frames.length / m ∧
      sampleFrames frames (some m) =
        (everyNth frames (frames.length / m)).take m ∧
      (sampleFrames frames (some m)).length = m) ∧
    (sampleFrames (List.range 100) (some 30)).length = 30 ∧
    sampleFrames (List.range 100) none = List.range 100 ∧
    sampleFrames (List.range 10) (some 30) = List.range 10 := by
  refine ⟨rfl, ?_, ?_, by rfl, rfl, by rfl⟩
  · intro hle
    have hcond : ¬(m ≠ 0 ∧ m < frames.length) := by omega
    simp only [sampleFrames, if_neg hcond]
  · intro hlt
    have hcond : m ≠ 0 ∧ m < frames.length := by omega
    have hstride : 1 ≤ frames.length / m :=
      (Nat.one_le_div_iff (by omega)).2 (le_of_lt hlt)
    refine ⟨hstride, by simp only [sampleFrames, if_pos hcond], ?_⟩
    simp only [sampleFrames, if_pos hcond, List.length_take,
      everyNth_length frames (frames.length / m) hstride]
    have hmul : m * (frames.length / m) ≤ frames.length := by
      calc m * (frames.length / m) = frames.length / m * m := Nat.mul_comm _ _
        _ ≤ frames.length := Nat.div_mul_le_self _ _
    have : m ≤ (frames.length + (frames.length / m - 1)) / (frames.length / m) :=
      (Nat.le_div_iff_mul_le (by omega)).2 (by omega)
    omega

/-- Witness for preprocess_frames_sampling: 100 frames sampled with limit
30 give exactly 30 frames. -/
theorem preprocess_frames_sampling_witness :
    1 ≤ (List.range 100).length / 30 ∧
    (sampleFrames (List.range 100) (some 30)).length = 30 :=
  ⟨((preprocess_frames_sampling (List.range 100) 30 (by decide)).2.2.1
      (by decide)).1,
   (preprocess_frames_sampling (List.range 100) 30 (by decide)).2.2.2.1⟩

lemma batchLoop_fst {α β : Type} (pre : α → Option β) (l : List α) :
    (batchLoop pre l).1 = l.filterMap pre := by
  induction l with
  | nil => rfl
  | cons p rest ih =>
    cases hp : pre p <;> simp [batchLoop, List.filterMap_cons, hp, ih]

lemma batchLoop_snd {α β : Type} (pre : α → Option β) (l : List α) :
    (batchLoop pre l).2 = l.filter (fun p => (pre p).isSome) := by
  induction l with
  | nil => rfl
  | cons p rest ih =>
    cases hp : pre p <;> simp [batchLoop, List.filter_cons, hp, ih]

lemma filterMap_filter_isSome {α β : Type} (pre : α → Option β) (l : List α) :
    (l.filter (fun p => (pre p).isSome)).filterMap pre = l.filterMap pre := by
  induction l with
  | nil => rfl
  | cons p rest ih =>
    cases hp : pre p <;>
      simp [List.filter_cons, List.filterMap_cons, hp, ih]

/-- C10: for every non-empty path list, preprocess_batch fails exactly
when every path fails to preprocess; on success it returns the surviving
paths as the subsequence of inputs whose preprocessing succeeded, in the
original order, and the batch is in one-to-one correspondence with them
(it is exactly their preprocessed images, equivalently the successes of
the whole input in order). -/
theorem preprocess_batch_spec {α β : Type} (pre : α → Option β)
    (paths : List α) (h : paths ≠ []) :
    ((∃ e, preprocess_batch pre paths = Except.error e) ↔
      ∀ p ∈ paths, pre p = none) ∧
    (∀ ts vps, preprocess_batch pre paths = Except.ok (ts, vps) →
      vps = paths.filter (fun p => (pre p).isSome) ∧
      ts = paths.filterMap pre ∧
      ts = vps.filterMap pre) := by
  have hE : paths.isEmpty = false := by
    cases paths with
    | nil => exact absurd rfl h
    | cons a l => rfl
  constructor
  · have key : (∃ e, preprocess_batch pre paths = Except.error e) ↔
        (batchLoop pre paths).1.isEmpty = true := by
      cases hmap : (batchLoop pre paths).1.isEmpty <;>
        simp [preprocess_batch, hE, hmap]
    rw [key, batchLoop_fst, List.isEmpty_iff, List.filterMap_eq_nil_iff]
  · intro ts vps hok
    have hmap : (batchLoop pre paths).1.isEmpty = false := by
      cases hmap : (batchLoop pre paths).1.isEmpty with
      | false => rfl
      | true => simp [preprocess_batch, hE, hmap] at hok
    rw [preprocess_batch] at hok
    simp only [hE, Bool.false_eq_true, if_false, hmap, Except.ok.injEq] at hok
    have h1 : ts = (batchLoop pre paths).1 := by rw [hok]
    have h2 : vps = (batchLoop pre paths).2 := by rw [hok]
    refine ⟨by rw [h2, batchLoop_snd], by rw [h1, batchLoop_fst], ?_⟩
    rw [h1, h2, batchLoop_fst, batchLoop_snd, filterMap_filter_isSome]

/-- Witness for preprocess_batch_spec: on paths [0,1,2] with a loader
failing on odd numbers, the batch is [0,20] and the valid paths [0,2]. -/
theorem preprocess_batch_spec_witness :
    [0, 2] = [0, 1, 2].filter (fun p => (evenLoader p).isSome) ∧
    [0, 20] = [0, 1, 2].filterMap evenLoader ∧
    [0, 20] = [0, 2].filterMap evenLoader :=
  (preprocess_batch_spec evenLoader [0, 1, 2] (by decide)).2 [0, 20] [0, 2] rfl
